import Mathlib

/-!
Verification of the DarwinFi evolutionary core.

Shallow embedding of `src/agents/models/agent.py` (class `Agent`) and
`src/agents/evolution.py` (classes `EvolutionHistory`, `EvolutionEngine`).

Modelling conventions, used consistently below:

* Python numbers (floats and the rational constants `0.1`, `0.5`, `0.05`)
  are modelled as `ℚ`; the exact binary rounding of IEEE floats is not
  modelled, which is irrelevant for every concrete input used here.
* Python's global `random` module is modelled by passing the random draws
  explicitly: every call of `random.random()` receives an arbitrary
  rational that is normalised into `[0, 1)` by `unitDraw`, every
  `random.randint(a, b)` receives an arbitrary natural number folded into
  `[a, b]` by `pyRandint`, and `random.sample` receives an arbitrary
  index stream (Fisher-Yates style, every sample is reachable).
* `uuid.uuid4()` is modelled by a fresh-identifier counter: each call
  returns the current counter value (a `Nat`) and bumps it.  Claims about
  identifier distinctness take the counter's freshness as a hypothesis.
* A Python instance attribute that may be absent (the engine writes
  `agent.fitness`, which `Agent.__init__` never creates) is modelled as an
  `Option` field whose `none` means "attribute absent"; reading an absent
  attribute is Python's `AttributeError`.  The attribute's value itself is
  `Option ℚ`, `none` being Python's `None` sentinel.
* `datetime.now()` / elapsed-time bookkeeping and the `creation_timestamp`,
  `last_evaluation_timestamp` fields are wall-clock values no claim ever
  reads; they are omitted from the records.  Likewise `np.std` (an
  irrational square root used only for the logged diversity scalar, which
  no claim reads) is omitted from the recorded statistics.
-/

namespace DarwinFi

/-- Python error kinds raised by the embedded code. -/
inductive PyErr where
  | attributeError : PyErr
  | typeError : PyErr
  | valueError : PyErr
deriving DecidableEq

/-- A strategy-parameter value: the scalar types `Agent.mutate` dispatches
on (`bool`, `int`, `float`; the spec's data model admits exactly these). -/
inductive PValue where
  | pbool : Bool → PValue
  | pint : Int → PValue
  | pfloat : ℚ → PValue
deriving DecidableEq

/-- The fixed `metrics` mapping created by `Agent.__init__`
(`total_return`, `sharpe_ratio`, `max_drawdown`, `win_rate`,
`avg_profit_loss`, `trades_executed`). -/
structure Metrics where
  total_return : ℚ
  sharpe_ratio : ℚ
  max_drawdown : ℚ
  win_rate : ℚ
  avg_profit_loss : ℚ
  trades_executed : ℚ
deriving DecidableEq

/-- The defaults `Agent.__init__` assigns to `self.metrics`. -/
def Metrics.default0 : Metrics := ⟨0, 0, 0, 0, 0, 0⟩

/-- `Agent` from `src/agents/models/agent.py`.  `strategy_params` is the
Python dict as an insertion-ordered association list.  The `fitness` field
models the DYNAMIC attribute the engine assigns: `Agent.__init__` never
creates it, so a fresh agent has `fitness = none` (reading it raises
`AttributeError`); the engine writes `some (some q)`, and `some none`
models an attribute holding Python's `None`.  `fitness_score` is the
declared field initialised to `0.0`. -/
structure Agent where
  id : Nat
  strategy_params : List (String × PValue)
  generation : Int
  parent_ids : List Nat
  metrics : Metrics
  fitness_score : ℚ
  mutation_rate : ℚ
  is_elite : Bool
  active : Bool
  fitness : Option (Option ℚ)
deriving DecidableEq

/-- Decidable equality on `Except` results, so that concrete runs of the
embedded code can be checked by `decide`. -/
def exceptDecEqFun {ε α : Type} [DecidableEq ε] [DecidableEq α] :
    (x y : Except ε α) → Decidable (x = y)
  | .error e, .error e' =>
      match decEq e e' with
      | isTrue h => isTrue (by rw [h])
      | isFalse h => isFalse (fun hh => h (by cases hh; rfl))
  | .error _, .ok _ => isFalse (fun hh => by cases hh)
  | .ok _, .error _ => isFalse (fun hh => by cases hh)
  | .ok a, .ok b =>
      match decEq a b with
      | isTrue h => isTrue (by rw [h])
      | isFalse h => isFalse (fun hh => h (by cases hh; rfl))

instance {ε α : Type} [DecidableEq ε] [DecidableEq α] : DecidableEq (Except ε α) :=
  exceptDecEqFun

/-- Reading `agent.fitness`: `AttributeError` when the attribute was never
assigned, otherwise its value (`Option ℚ`, `none` = Python `None`). -/
def readFitness (a : Agent) : Except PyErr (Option ℚ) :=
  match a.fitness with
  | none => .error .attributeError
  | some v => .ok v

/-- `random.random()`: the draw is an arbitrary rational normalised into
`[0, 1)` (every value of `random.random()` is reachable). -/
def unitDraw (q : ℚ) : ℚ := if 0 ≤ q ∧ q < 1 then q else 0

/-- `random.randint(a, b)`: an arbitrary natural draw folded into `[a, b]`
(surjective onto the interval when `a ≤ b`). -/
def pyRandint (a b : Int) (raw : Nat) : Int := a + (raw : Int) % (b - a + 1)

/-- `random.uniform(a, b) = a + (b - a) * random.random()`. -/
def pyUniform (a b u : ℚ) : ℚ := a + (b - a) * unitDraw u

/-- `Agent.__init__(strategy_params, generation=0, parent_ids=None)`.
`self.id = str(uuid.uuid4())` is the fresh identifier `newId`;
`self.parent_ids = parent_ids or []`; `self.fitness_score = 0.0`;
`self.mutation_rate = 0.05`; no `fitness` attribute is created. -/
def Agent.init (strategy_params : List (String × PValue)) (generation : Int)
    (parent_ids : Option (List Nat)) (newId : Nat) : Agent :=
  { id := newId
    strategy_params := strategy_params
    generation := generation
    parent_ids := parent_ids.getD []
    metrics := Metrics.default0
    fitness_score := 0
    mutation_rate := 1/20
    is_elite := false
    active := true
    fitness := none }

/-- The random draws one parameter's mutation may consume: the
`random.random()` gate, the `randint` raw draw (int branch) and the
`random.uniform` draw (float branch). -/
structure MutDraw where
  gate : ℚ
  intOff : Nat
  unif : ℚ

/-- The `int` adjustment `max(1, int(abs(value) * 0.1))` (Python `int` of a
non-negative float truncates, i.e. floor). -/
def intAdjustment (n : Int) : Int := max 1 ⌊(n.natAbs : ℚ) * (1/10)⌋

/-- One parameter's perturbation in `Agent.mutate`: booleans are negated;
ints get `random.randint(-d, d)` with `d = max(1, int(abs(v) * 0.1))`;
floats get `random.uniform(-d, d)` with `d = abs(v) * 0.1`. -/
def mutate_param (v : PValue) (d : MutDraw) : PValue :=
  match v with
  | .pbool b => .pbool (!b)
  | .pint n =>
      let adjustment := intAdjustment n
      .pint (n + pyRandint (-adjustment) adjustment d.intOff)
  | .pfloat x =>
      let adjustment := |x| * (1/10)
      .pfloat (x + pyUniform (-adjustment) adjustment d.unif)

/-- The `for key in self.strategy_params` loop of `Agent.mutate`: each key
is perturbed in place exactly when its `random.random()` gate is below
`rate`; keys and their order are unchanged. -/
def mutateParams (rate : ℚ) (d : Nat → MutDraw) : Nat → List (String × PValue) → List (String × PValue)
  | _, [] => []
  | i, (k, v) :: t =>
      (k, if unitDraw (d i).gate < rate then mutate_param v (d i) else v)
        :: mutateParams rate d (i + 1) t

/-- `Agent.mutate(mutation_rate=None)`: uses the argument when it is not
`None`, else the agent's own `mutation_rate`; rewrites `strategy_params`
in place and touches no other field. -/
def Agent.mutate (a : Agent) (mutation_rate : Option ℚ) (d : Nat → MutDraw) : Agent :=
  let rate := mutation_rate.getD a.mutation_rate
  { a with strategy_params := mutateParams rate d 0 a.strategy_params }

/-- Python dict lookup on the association list (first matching key). -/
def lookupParam (k : String) : List (String × PValue) → Option PValue
  | [] => none
  | p :: t => if p.1 = k then some p.2 else lookupParam k t

/-- `key in dict`. -/
def keyMem (k : String) (ps : List (String × PValue)) : Bool :=
  (lookupParam k ps).isSome

/-- `dict[key]` (the default is unreachable at every call site, which only
indexes present keys). -/
def getParam (k : String) (ps : List (String × PValue)) : PValue :=
  (lookupParam k ps).getD (.pbool false)

/-- The per-key choice of `Agent.crossover`: a key in both parents takes
parent 1's value when `random.random() < 0.5` and parent 2's otherwise; a
key in only one parent takes that parent's value. -/
def crossoverValue (ps1 ps2 : List (String × PValue)) (coin : ℚ) (k : String) : PValue :=
  if keyMem k ps1 && keyMem k ps2 then
    (if unitDraw coin < 1/2 then getParam k ps1 else getParam k ps2)
  else if keyMem k ps1 then getParam k ps1
  else getParam k ps2

/-- `all_keys = set(keys1) | set(keys2)`.  Python's set iteration order is
unspecified; it is modelled canonically as parent 1's keys followed by
parent 2's fresh keys (no claim depends on the order). -/
def unionKeyList (ps1 ps2 : List (String × PValue)) : List String :=
  ps1.map Prod.fst ++ (ps2.map Prod.fst).filter (fun k => !keyMem k ps1)

/-- The `for key in all_keys` loop of `Agent.crossover`, consuming one coin
per key position. -/
def crossParamsGo (ps1 ps2 : List (String × PValue)) (coin : Nat → ℚ) :
    Nat → List String → List (String × PValue)
  | _, [] => []
  | i, k :: ks =>
      (k, crossoverValue ps1 ps2 (coin i) k) :: crossParamsGo ps1 ps2 coin (i + 1) ks

/-- `Agent.crossover(agent1, agent2)`: builds the union parameter set, then
`cls(new_params, max(g1, g2) + 1, [id1, id2])` and finally overwrites the
child's `mutation_rate` with the parents' average. -/
def Agent.crossover (agent1 agent2 : Agent) (coin : Nat → ℚ) (newId : Nat) : Agent :=
  let new_params := crossParamsGo agent1.strategy_params agent2.strategy_params coin 0
      (unionKeyList agent1.strategy_params agent2.strategy_params)
  let child := Agent.init new_params (max agent1.generation agent2.generation + 1)
      (some [agent1.id, agent2.id]) newId
  { child with mutation_rate := (agent1.mutation_rate + agent2.mutation_rate) / 2 }

/-- `Agent.clone()` = `copy.deepcopy(self)` plus a fresh `id`; every other
field, including a `fitness` attribute when present, is copied as-is. -/
def Agent.clone (a : Agent) (newId : Nat) : Agent := { a with id := newId }

/-- The dictionary produced by `Agent.to_dict` (exactly its nine keys). -/
structure AgentDict where
  id : Nat
  generation : Int
  parent_ids : List Nat
  strategy_params : List (String × PValue)
  metrics : Metrics
  fitness_score : ℚ
  mutation_rate : ℚ
  is_elite : Bool
  active : Bool
deriving DecidableEq

/-- `Agent.to_dict`. -/
def Agent.to_dict (a : Agent) : AgentDict :=
  { id := a.id
    generation := a.generation
    parent_ids := a.parent_ids
    strategy_params := a.strategy_params
    metrics := a.metrics
    fitness_score := a.fitness_score
    mutation_rate := a.mutation_rate
    is_elite := a.is_elite
    active := a.active }

/-- `Agent.from_dict`: constructs via `cls(...)` (consuming a fresh uuid)
and then overwrites `id`, `metrics`, `fitness_score`, `mutation_rate`,
`is_elite`, `active` from the data. -/
def Agent.from_dict (data : AgentDict) (newId : Nat) : Agent :=
  let agent := Agent.init data.strategy_params data.generation (some data.parent_ids) newId
  { agent with
    id := data.id
    metrics := data.metrics
    fitness_score := data.fitness_score
    mutation_rate := data.mutation_rate
    is_elite := data.is_elite
    active := data.active }

/-- One entry of `EvolutionHistory.generation_stats` (the fields claims
read; `timestamp`, `elapsed_time` and the `diversity_metric` scalar — wall
clock and `np.std`'s irrational square root — are omitted, see the header). -/
structure GenStats where
  generation : Nat
  best_fitness : ℚ
  average_fitness : ℚ
  population_size : Nat
deriving DecidableEq

/-- `EvolutionHistory` (its `start_time` wall-clock field omitted). -/
structure EvolutionHistory where
  generation_stats : List GenStats
  best_agent_history : List Agent
deriving DecidableEq

/-- `EvolutionEngine`: configuration fixed by `__init__`, current
population, history and generation counter. -/
structure EvolutionEngine where
  population_size : Nat
  tournament_size : Nat
  crossover_rate : ℚ
  mutation_rate : ℚ
  elitism_count : Nat
  fitness_function : Option (Agent → ℚ)
  population : List Agent
  history : EvolutionHistory
  current_generation : Nat

/-- `EvolutionEngine.__init__`: assigns the six configuration fields and
starts with an empty population, fresh history and generation 0.  The
constructor body contains no validation and cannot raise. -/
def EvolutionEngine.init (population_size tournament_size : Nat)
    (crossover_rate mutation_rate : ℚ) (elitism_count : Nat)
    (fitness_function : Option (Agent → ℚ)) : EvolutionEngine :=
  { population_size := population_size
    tournament_size := tournament_size
    crossover_rate := crossover_rate
    mutation_rate := mutation_rate
    elitism_count := elitism_count
    fitness_function := fitness_function
    population := []
    history := ⟨[], []⟩
    current_generation := 0 }

/-- The fold of Python's `max(iterable, key=lambda x: x.fitness)`: carries
the current best and its key; a comparison involving a `None` key is
Python's `TypeError`, a missing attribute an `AttributeError`. -/
def maxFold : Agent × Option ℚ → List Agent → Except PyErr (Agent × Option ℚ)
  | cur, [] => .ok cur
  | cur, b :: t =>
      match readFitness b with
      | .error e => .error e
      | .ok kb =>
        match kb, cur.2 with
        | some qb, some qc =>
            if qb > qc then maxFold (b, some qb) t else maxFold cur t
        | _, _ => .error .typeError

/-- `max(l, key=lambda x: x.fitness)`: `ValueError` on an empty iterable,
first maximal element otherwise (ties keep the earlier element). -/
def pyMaxByFitness (l : List Agent) : Except PyErr Agent :=
  match l with
  | [] => .error .valueError
  | a :: t =>
      match readFitness a with
      | .error e => .error e
      | .ok ka =>
        match maxFold (a, ka) t with
        | .error e => .error e
        | .ok r => .ok r.1

/-- The selection loop of `random.sample(l, k)`: at each step an arbitrary
raw draw picks one remaining element by index (every k-permutation is
reachable); the chosen element is removed. -/
def sampleGo : Nat → List Agent → (Nat → Nat) → List Agent
  | 0, _, _ => []
  | n + 1, l, d =>
      match l.get? (d 0 % l.length) with
      | none => []
      | some a => a :: sampleGo n (l.eraseIdx (d 0 % l.length)) (fun i => d (i + 1))

/-- `random.sample(l, k)`: `ValueError` when `k` exceeds the population
size, else `k` distinct elements. -/
def pySample (l : List Agent) (k : Nat) (d : Nat → Nat) : Except PyErr (List Agent) :=
  if k ≤ l.length then .ok (sampleGo k l d) else .error .valueError

/-- The sort key `lambda x: x.fitness` coerced to `ℚ` (only applied on the
branch where every key is a set float). -/
def fitnessKey (a : Agent) : ℚ := (Option.join a.fitness).getD 0

/-- Stable descending insertion respecting `fitnessKey` (any stable sort
computes the same list as Python's stable `sorted(..., reverse=True)`). -/
def insertAgentDesc (x : Agent) : List Agent → List Agent
  | [] => [x]
  | y :: t => if fitnessKey y > fitnessKey x then y :: insertAgentDesc x t else x :: y :: t

/-- Stable descending sort by `fitnessKey`. -/
def sortAgentsDesc : List Agent → List Agent
  | [] => []
  | x :: t => insertAgentDesc x (sortAgentsDesc t)

/-- `sorted` first computes `x.fitness` for every element in list order
(`AttributeError` on a missing attribute). -/
def attachKeys : List Agent → Except PyErr (List (Option ℚ))
  | [] => .ok []
  | a :: t =>
      match a.fitness with
      | none => .error .attributeError
      | some v =>
        match attachKeys t with
        | .error e => .error e
        | .ok rest => .ok (v :: rest)

/-- `sorted(population, key=lambda x: x.fitness, reverse=True)`: reads all
keys, raises `TypeError` when a `None` key would be compared (any list of
length ≥ 2 containing one), else the stable descending order. -/
def sortByFitnessDesc (pop : List Agent) : Except PyErr (List Agent) :=
  match attachKeys pop with
  | .error e => .error e
  | .ok keys =>
      if 2 ≤ pop.length && keys.any Option.isNone then .error .typeError
      else .ok (sortAgentsDesc pop)

/-- The evaluation loop of `evaluate_population`: for each agent in order,
read `agent.fitness` (AttributeError when absent) and assign
`fitness_function(agent)` exactly when it is `None`. -/
def evalLoop (f : Agent → ℚ) : List Agent → Except PyErr (List Agent)
  | [] => .ok []
  | a :: t =>
      match readFitness a with
      | .error e => .error e
      | .ok v =>
        let a' := if v = none then { a with fitness := some (some (f a)) } else a
        match evalLoop f t with
        | .error e => .error e
        | .ok rest => .ok (a' :: rest)

/-- `EvolutionEngine.evaluate_population`: `ValueError` when no fitness
function is set; then the evaluation loop; the trailing logging line
computes `np.max(fitnesses)`, which raises `ValueError` on an empty
population. -/
def evaluate_population (s : EvolutionEngine) : Except PyErr (List Agent) :=
  match s.fitness_function with
  | none => .error .valueError
  | some f =>
      match evalLoop f s.population with
      | .error e => .error e
      | .ok pop' => if s.population.isEmpty then .error .valueError else .ok pop'

/-- `EvolutionEngine.tournament_selection`: sample `tournament_size`
distinct agents, return the fitness-maximal one. -/
def tournament_selection (s : EvolutionEngine) (d : Nat → Nat) : Except PyErr Agent :=
  match pySample s.population s.tournament_size d with
  | .error e => .error e
  | .ok t => pyMaxByFitness t

/-- The random draws one offspring iteration of `create_next_generation`
may consume: two tournament samples, the crossover gate, the clone-parent
coin, the mutation gate and the per-key mutation draws.  (No per-key
crossover coins appear: the crossover branch raises before
`Agent.crossover`'s body could draw them, see `offspringStep`.) -/
structure IterDraw where
  t1 : Nat → Nat
  t2 : Nat → Nat
  rc : ℚ
  pick : ℚ
  rm : ℚ
  mutDraws : Nat → MutDraw

/-- One iteration of the offspring loop: select two parents by tournament;
with probability `crossover_rate` the source executes
`parent1.crossover(parent2)` — but `crossover` is a `@classmethod` with
signature `(cls, agent1, agent2)`, so this call binds `cls = Agent` and
`agent1 = parent2`, leaving `agent2` missing: it raises
`TypeError: crossover() missing 1 required positional argument` on every
crossover draw.  Otherwise one parent, chosen by a fair coin, is cloned
and then mutated with probability `mutation_rate` (using the offspring's
own `mutation_rate`, as `offspring.mutate()` passes no rate). -/
def offspringStep (s : EvolutionEngine) (d : IterDraw) (ctr : Nat) :
    Except PyErr (Agent × Nat) :=
  match tournament_selection s d.t1 with
  | .error e => .error e
  | .ok parent1 =>
    match tournament_selection s d.t2 with
    | .error e => .error e
    | .ok parent2 =>
      if unitDraw d.rc < s.crossover_rate then
        .error .typeError
      else
        let oc : Agent × Nat :=
          if unitDraw d.pick < 1/2 then
            (parent1.clone ctr, ctr + 1)
          else
            (parent2.clone ctr, ctr + 1)
        let offspring := if unitDraw d.rm < s.mutation_rate then
            Agent.mutate oc.1 none d.mutDraws
          else oc.1
        .ok (offspring, oc.2)

/-- The `while len(new_population) < population_size` loop: each iteration
appends exactly one offspring, so the loop body runs
`population_size - len(new_population)` times. -/
def offspringLoop (s : EvolutionEngine) : Nat → (Nat → IterDraw) → Nat →
    Except PyErr (List Agent × Nat)
  | 0, _, ctr => .ok ([], ctr)
  | n + 1, ds, ctr =>
      match offspringStep s (ds 0) ctr with
      | .error e => .error e
      | .ok ac =>
        match offspringLoop s n (fun i => ds (i + 1)) ac.2 with
        | .error e => .error e
        | .ok rest => .ok (ac.1 :: rest.1, rest.2)

/-- Clone a list of elites in order, each consuming one fresh identifier. -/
def cloneList : List Agent → Nat → List Agent × Nat
  | [], ctr => ([], ctr)
  | a :: t, ctr =>
      let rest := cloneList t (ctr + 1)
      (a.clone ctr :: rest.1, rest.2)

/-- The `[agent.fitness for agent in population if agent.fitness is not None]`
comprehension: reads every attribute in order, keeps the non-`None` values. -/
def collectFitness : List Agent → Except PyErr (List ℚ)
  | [] => .ok []
  | a :: t =>
      match readFitness a with
      | .error e => .error e
      | .ok v =>
        match collectFitness t with
        | .error e => .error e
        | .ok rest =>
          match v with
          | some q => .ok (q :: rest)
          | none => .ok rest

/-- `max` over a nonempty rational list (`none` on the empty list). -/
def listMaxQ : List ℚ → Option ℚ
  | [] => none
  | q :: t => some (t.foldl max q)

/-- `EvolutionHistory.add_generation`: appends the stats record and a
clone of the population's fitness-best agent to `best_agent_history`. -/
def add_generation (h : EvolutionHistory) (generation : Nat) (population : List Agent)
    (best_fitness avg_fitness : ℚ) (ctr : Nat) : Except PyErr (EvolutionHistory × Nat) :=
  let stats : GenStats := ⟨generation, best_fitness, avg_fitness, population.length⟩
  match pyMaxByFitness population with
  | .error e => .error e
  | .ok best_agent =>
      .ok (⟨h.generation_stats ++ [stats],
            h.best_agent_history ++ [best_agent.clone ctr]⟩, ctr + 1)

/-- `EvolutionEngine._record_generation_stats`: collect the set fitness
values; when none exist, log a warning and record nothing; else append the
generation record built from the current (new) population. -/
def record_generation_stats (s : EvolutionEngine) (ctr : Nat) :
    Except PyErr (EvolutionHistory × Nat) :=
  match collectFitness s.population with
  | .error e => .error e
  | .ok fits =>
    match listMaxQ fits with
    | none => .ok (s.history, ctr)
    | some best =>
        let avg := fits.sum / (fits.length : ℚ)
        add_generation s.history s.current_generation s.population best avg ctr

/-- `EvolutionEngine.create_next_generation`: evaluate, sort descending by
fitness, clone the top `elitism_count` elites, fill up to
`population_size` with tournament offspring, truncate, replace the
population, bump the generation counter and record the statistics. -/
def create_next_generation (s : EvolutionEngine) (ds : Nat → IterDraw) (ctr : Nat) :
    Except PyErr (EvolutionEngine × Nat) :=
  match evaluate_population s with
  | .error e => .error e
  | .ok pop1 =>
    let s1 := { s with population := pop1 }
    match sortByFitnessDesc s1.population with
    | .error e => .error e
    | .ok sorted_population =>
      let elites := sorted_population.take s1.elitism_count
      let ec := cloneList elites ctr
      match offspringLoop s1 (s1.population_size - ec.1.length) ds ec.2 with
      | .error e => .error e
      | .ok offs =>
        let new_population := (ec.1 ++ offs.1).take s1.population_size
        let s2 := { s1 with
          population := new_population
          current_generation := s1.current_generation + 1 }
        match record_generation_stats s2 offs.2 with
        | .error e => .error e
        | .ok hc => .ok ({ s2 with history := hc.1 }, hc.2)

/-- `EvolutionEngine.evolve(generations)`: iterate
`create_next_generation` that many times. -/
def evolve : Nat → EvolutionEngine → (Nat → Nat → IterDraw) → Nat →
    Except PyErr (EvolutionEngine × Nat)
  | 0, s, _, ctr => .ok (s, ctr)
  | n + 1, s, ds, ctr =>
      match create_next_generation s (ds 0) ctr with
      | .error e => .error e
      | .ok sc => evolve n sc.1 (fun g => ds (g + 1)) sc.2

/-- `EvolutionHistory.get_best_agent_ever`: `None` on an empty history,
else the fitness-maximal snapshotted best agent. -/
def get_best_agent_ever (h : EvolutionHistory) : Except PyErr (Option Agent) :=
  match h.best_agent_history with
  | [] => .ok none
  | l =>
      match pyMaxByFitness l with
      | .error e => .error e
      | .ok a => .ok (some a)

/-- The fitness a caller reads off `get_best_agent_ever()`'s result. -/
def bestEverFitnessVal (h : EvolutionHistory) : Except PyErr (Option ℚ) :=
  match get_best_agent_ever h with
  | .error e => .error e
  | .ok none => .ok none
  | .ok (some a) => readFitness a

/-! ### Helper predicates and result projections used by the statements -/

/-- The agent's `fitness` attribute exists and holds a float (a "set"
fitness value in the spec's sense). -/
def fitnessIsSet (a : Agent) : Bool :=
  match a.fitness with
  | some (some _) => true
  | _ => false

/-- Whether an engine call returned normally. -/
def exceptOk : Except PyErr (EvolutionEngine × Nat) → Bool
  | .ok _ => true
  | .error _ => false

/-- The population length of a normally returned engine state. -/
def resultPopLen : Except PyErr (EvolutionEngine × Nat) → Option Nat
  | .ok sc => some sc.1.population.length
  | .error _ => none

/-- Position `i` of a normally returned engine state's population. -/
def resultPopGet (r : Except PyErr (EvolutionEngine × Nat)) (i : Nat) : Option Agent :=
  match r with
  | .ok sc => sc.1.population.get? i
  | .error _ => none

/-- The caller-visible best-ever fitness of a normally returned engine
state's history. -/
def bestEverAfter : Except PyErr (EvolutionEngine × Nat) → Except PyErr (Option ℚ)
  | .ok sc => bestEverFitnessVal sc.1.history
  | .error e => .error e

/-- The fields of an agent an elite clone must reproduce exactly
(`strategy_params` and the `fitness` attribute). -/
def cloneView (a : Agent) : List (String × PValue) × Option (Option ℚ) :=
  (a.strategy_params, a.fitness)

/-- Holds when the option is an agent whose identifier differs from `b`'s. -/
def idDiffers : Option Agent → Agent → Prop
  | some a, b => a.id ≠ b.id
  | none, _ => False

/-- The mutated entry at a position is an int within `intAdjustment` of the
prior value `n`. -/
def intWithin (n : Int) : Option (String × PValue) → Prop
  | some (_, .pint m) => (m - n).natAbs ≤ (intAdjustment n).toNat
  | _ => False

/-- The mutated entry at a position is a float within 10 percent of the
prior value `x`. -/
def floatWithin (x : ℚ) : Option (String × PValue) → Prop
  | some (_, .pfloat y) => |y - x| ≤ |x| * (1/10)
  | _ => False

/-! ### Concrete inputs used by the witnesses and counterexamples -/

/-- A trivial per-key coin stream for direct `Agent.crossover` calls. -/
def coinZero : Nat → ℚ := fun _ => 0

/-- A trivial draw stream (no crossover gate passes under rate 0). -/
def dsZero : Nat → IterDraw :=
  fun _ => ⟨fun _ => 0, fun _ => 0, 0, 0, 0, fun _ => ⟨0, 0, 0⟩⟩

/-- Agent with a set fitness of 9, used by the C1 witness engine. -/
def agC1a : Agent :=
  { id := 7
    strategy_params := [("x", .pint 5)]
    generation := 0
    parent_ids := []
    metrics := Metrics.default0
    fitness_score := 0
    mutation_rate := 1/20
    is_elite := false
    active := true
    fitness := some (some 9) }

/-- Agent with a set fitness of 4, used by the C1 witness engine. -/
def agC1b : Agent :=
  { agC1a with id := 8, fitness := some (some 4), strategy_params := [("x", .pint 2)] }

/-- Concrete engine for the C1 witness: `N = 2`, `k = 1`, `e = 1`, a set
fitness on both agents, crossover and mutation rates 0. -/
def engC1 : EvolutionEngine :=
  { population_size := 2
    tournament_size := 1
    crossover_rate := 0
    mutation_rate := 0
    elitism_count := 1
    fitness_function := some (fun _ => 0)
    population := [agC1a, agC1b]
    history := ⟨[], []⟩
    current_generation := 0 }

/-- Genome with a single integer parameter of value 3, on which the claimed
10-percent mutation bound fails. -/
def agC2 : Agent :=
  { agC1a with strategy_params := [("x", .pint 3)], fitness := none }

/-- Mutation draws for the C2 counterexample: gate 0 (always below rate 1)
and raw int draw 2, which `pyRandint (-1) 1` folds to offset `+1`. -/
def mdC2 : Nat → MutDraw := fun _ => ⟨0, 2, 0⟩

/-- Genome with one boolean and one integer parameter for the C2 witness. -/
def agC2w : Agent :=
  { agC1a with strategy_params := [("flag", .pbool true), ("x", .pint 25)], fitness := none }

/-- Engine constructed with tournament size 5 exceeding population size 3
(the C3 counterexample input). -/
def engC3 : EvolutionEngine := EvolutionEngine.init 3 5 (7/10) (1/10) 2 none

/-- Agent whose `fitness` attribute is set to 7 (C4 counterexample input). -/
def agC4 : Agent := { agC1a with fitness := some (some 7) }

/-- First parent for the C5 witness: keys `a` (bool) and `b` (int). -/
def agC5a : Agent :=
  { agC1a with strategy_params := [("a", .pbool true), ("b", .pint 1)], fitness := none }

/-- Second parent for the C5 witness: keys `b` (int, different value) and
`c` (float). -/
def agC5b : Agent :=
  { agC1a with
    id := 9
    strategy_params := [("b", .pint 2), ("c", .pfloat 3)]
    fitness := none
    mutation_rate := 3/20 }

/-- A fully populated agent exercising every field of the C6 round trip. -/
def agC6 : Agent :=
  { id := 42
    strategy_params := [("a", .pbool true), ("b", .pint (-7)), ("c", .pfloat (5/2))]
    generation := 3
    parent_ids := [11, 12]
    metrics := ⟨1, mkRat 1 2, mkRat (-1) 4, mkRat 3 5, 0, 17⟩
    fitness_score := mkRat 9 8
    mutation_rate := 1/10
    is_elite := true
    active := false
    fitness := some (some 5) }

/-- A freshly constructed agent (`Agent.__init__`): no `fitness`
attribute. -/
def agFresh : Agent := Agent.init [("x", .pint 1)] 0 none 55

/-- Engine whose fitness function is set but whose population contains a
freshly constructed agent (C7 failing input, C10 witness input). -/
def engC7 : EvolutionEngine :=
  { population_size := 1
    tournament_size := 1
    crossover_rate := 7/10
    mutation_rate := 1/10
    elitism_count := 2
    fitness_function := some (fun _ => 1)
    population := [agFresh]
    history := ⟨[], []⟩
    current_generation := 0 }

/-- Engine for the C10 witness (same shape as `engC7`, its own input). -/
def engC10 : EvolutionEngine :=
  { engC7 with population := [agFresh, agC1a] }

/-- Engine for the C8 witness: two set-fitness agents, `e = 1`. -/
def engC8 : EvolutionEngine :=
  { engC1 with population := [agC1b, agC1a] }

/-- Engine for the C9 witness: like `engC1` but with one recorded
best-agent snapshot of fitness 1 already in the history. -/
def engC9 : EvolutionEngine :=
  { engC1 with history := ⟨[], [{ agC1a with id := 3, fitness := some (some 1) }]⟩ }

/-!
### Lemmas

`Rat` arithmetic is sealed irreducible in core; re-opening it locally lets
concrete runs of the embedded code be settled by `decide`.
-/

attribute [local semireducible] Rat.add Rat.mul Rat.sub Rat.inv

theorem unitDraw_nonneg (q : ℚ) : 0 ≤ unitDraw q := by
  unfold unitDraw
  split
  next h => exact h.1
  next => norm_num

theorem unitDraw_lt_one (q : ℚ) : unitDraw q < 1 := by
  unfold unitDraw
  split
  next h => exact h.2
  next => norm_num

theorem intAdjustment_pos (n : Int) : 1 ≤ intAdjustment n := le_max_left _ _

theorem pyRandint_sym_bound {c : Int} (hc : 1 ≤ c) (raw : Nat) :
    -c ≤ pyRandint (-c) c raw ∧ pyRandint (-c) c raw ≤ c := by
  unfold pyRandint
  have hpos : (0 : Int) < c - -c + 1 := by omega
  have h1 := Int.emod_nonneg (raw : Int) (by omega : c - -c + 1 ≠ 0)
  have h2 := Int.emod_lt_of_pos (raw : Int) hpos
  omega

theorem pyUniform_sym_bound {c : ℚ} (hc : 0 ≤ c) (u : ℚ) :
    |pyUniform (-c) c u| ≤ c := by
  unfold pyUniform
  have h0 := unitDraw_nonneg u
  have h1 := unitDraw_lt_one u
  rw [abs_le]
  constructor
  · nlinarith
  · nlinarith

theorem mutateParams_get (rate : ℚ) (d : Nat → MutDraw) :
    ∀ (ps : List (String × PValue)) (j i : Nat),
      (mutateParams rate d j ps).get? i =
        (ps.get? i).map (fun p =>
          (p.1, if unitDraw (d (j + i)).gate < rate then mutate_param p.2 (d (j + i)) else p.2))
  | [], _, _ => by simp [mutateParams]
  | (k, v) :: t, j, 0 => by simp [mutateParams]
  | (k, v) :: t, j, i + 1 => by
      have h := mutateParams_get rate d t (j + 1) i
      have e : j + 1 + i = j + (i + 1) := by omega
      rw [e] at h
      simpa [mutateParams] using h

theorem lookupParam_isSome_eq_keyMem (k : String) (ps : List (String × PValue)) :
    (lookupParam k ps).isSome = keyMem k ps := rfl

theorem keyMem_iff_mem {k : String} :
    ∀ {ps : List (String × PValue)}, keyMem k ps = true ↔ k ∈ ps.map Prod.fst
  | [] => by simp [keyMem, lookupParam]
  | p :: t => by
      by_cases h : p.1 = k
      · simp [keyMem, lookupParam, h]
      · have ih := @keyMem_iff_mem k t
        simp only [keyMem, lookupParam, if_neg h] at ih ⊢
        simp only [List.map_cons, List.mem_cons, ih]
        constructor
        · exact Or.inr
        · rintro (h' | h')
          · exact absurd h'.symm h
          · exact h'

theorem keyMem_false_iff {k : String} {ps : List (String × PValue)} :
    keyMem k ps = false ↔ k ∉ ps.map Prod.fst := by
  rw [← keyMem_iff_mem]
  cases h : keyMem k ps <;> simp

theorem mem_unionKeyList {k : String} {ps1 ps2 : List (String × PValue)} :
    k ∈ unionKeyList ps1 ps2 ↔ (keyMem k ps1 = true ∨ keyMem k ps2 = true) := by
  unfold unionKeyList
  simp only [List.mem_append, List.mem_filter, Bool.not_eq_true', keyMem_false_iff,
    keyMem_iff_mem]
  constructor
  · rintro (h | ⟨h, _⟩)
    · exact Or.inl h
    · exact Or.inr h
  · rintro (h | h)
    · exact Or.inl h
    · by_cases h1 : k ∈ ps1.map Prod.fst
      · exact Or.inl h1
      · exact Or.inr ⟨h, h1⟩

theorem crossParamsGo_not_mem {k : String} {ps1 ps2 : List (String × PValue)} {coin : Nat → ℚ} :
    ∀ {ks : List String} (i : Nat), k ∉ ks →
      lookupParam k (crossParamsGo ps1 ps2 coin i ks) = none
  | [], _, _ => rfl
  | k' :: ks, i, h => by
      have h1 : ¬(k' = k) := fun e => h (e ▸ List.mem_cons_self k' ks)
      simp only [crossParamsGo, lookupParam, if_neg h1]
      exact crossParamsGo_not_mem (i + 1) (fun hm => h (List.mem_cons_of_mem _ hm))

theorem crossParamsGo_mem {k : String} {ps1 ps2 : List (String × PValue)} {coin : Nat → ℚ} :
    ∀ {ks : List String} (i : Nat), k ∈ ks →
      ∃ q, lookupParam k (crossParamsGo ps1 ps2 coin i ks) =
        some (crossoverValue ps1 ps2 q k)
  | [], _, h => absurd h (List.not_mem_nil k)
  | k' :: ks, i, h => by
      by_cases h1 : k' = k
      · subst h1
        exact ⟨coin i, by simp [crossParamsGo, lookupParam]⟩
      · have hm : k ∈ ks := by
          rcases List.mem_cons.mp h with h' | h'
          · exact absurd h'.symm h1
          · exact h'
        obtain ⟨q, hq⟩ := @crossParamsGo_mem k ps1 ps2 coin ks (i + 1) hm
        exact ⟨q, by simp only [crossParamsGo, lookupParam, if_neg h1]; exact hq⟩

theorem getParam_eq {k : String} {v : PValue} {ps : List (String × PValue)}
    (h : lookupParam k ps = some v) : getParam k ps = v := by
  unfold getParam
  rw [h]
  rfl

theorem crossoverValue_left {ps1 ps2 : List (String × PValue)} {k : String} {v : PValue}
    (q : ℚ) (h1 : lookupParam k ps1 = some v) (h2 : lookupParam k ps2 = none) :
    crossoverValue ps1 ps2 q k = v := by
  unfold crossoverValue keyMem
  rw [h1, h2]
  simp [getParam_eq h1]

theorem crossoverValue_right {ps1 ps2 : List (String × PValue)} {k : String} {v : PValue}
    (q : ℚ) (h1 : lookupParam k ps1 = none) (h2 : lookupParam k ps2 = some v) :
    crossoverValue ps1 ps2 q k = v := by
  unfold crossoverValue keyMem
  rw [h1, h2]
  simp [getParam_eq h2]

theorem crossoverValue_both {ps1 ps2 : List (String × PValue)} {k : String} {v1 v2 : PValue}
    (q : ℚ) (h1 : lookupParam k ps1 = some v1) (h2 : lookupParam k ps2 = some v2) :
    crossoverValue ps1 ps2 q k = v1 ∨ crossoverValue ps1 ps2 q k = v2 := by
  unfold crossoverValue keyMem
  rw [h1, h2]
  simp only [Option.isSome_some, Bool.and_self, if_true]
  split
  · exact Or.inl (getParam_eq h1)
  · exact Or.inr (getParam_eq h2)

/-! ### Claim theorems -/

/-- C2 (counterexample): mutating the single integer parameter `x = 3`
under rate 1.0 can move it to 4 — a change of 1, which exceeds 10 percent
of the prior absolute value 3 — and, under a different draw, can leave the
nonzero integer unchanged, contradicting the claimed minimum step of 1. -/
theorem C2_counterexample :
    (Agent.mutate agC2 (some 1) mdC2).strategy_params = [("x", .pint 4)] ∧
    ¬(|(4 : ℚ) - 3| ≤ |(3 : ℚ)| * (1/10)) ∧
    (Agent.mutate agC2 (some 1) (fun _ => ⟨0, 1, 0⟩)).strategy_params = [("x", .pint 3)] := by
  refine ⟨by decide, by decide, by decide⟩

/-- C2 (amended): under rate 1.0 every boolean parameter is flipped; an
integer parameter stays an integer and changes by at most
`max(1, int(0.1 * |value|))` — which may exceed 10 percent of the prior
absolute value when that value is small, and may be zero; a float
parameter stays a float and changes by at most 10 percent of its prior
absolute value. -/
theorem C2_mutation_fidelity (a : Agent) (d : Nat → MutDraw) (i : Nat) (k : String) :
    (∀ b, a.strategy_params.get? i = some (k, .pbool b) →
      (a.mutate (some 1) d).strategy_params.get? i = some (k, .pbool (!b))) ∧
    (∀ n, a.strategy_params.get? i = some (k, .pint n) →
      intWithin n ((a.mutate (some 1) d).strategy_params.get? i)) ∧
    (∀ x, a.strategy_params.get? i = some (k, .pfloat x) →
      floatWithin x ((a.mutate (some 1) d).strategy_params.get? i)) := by
  have hget : (a.mutate (some 1) d).strategy_params.get? i =
      (a.strategy_params.get? i).map (fun p =>
        (p.1, if unitDraw (d i).gate < 1 then mutate_param p.2 (d i) else p.2)) := by
    show (mutateParams 1 d 0 a.strategy_params).get? i = _
    rw [mutateParams_get]
    simp
  have hgate : unitDraw (d i).gate < 1 := unitDraw_lt_one _
  refine ⟨?_, ?_, ?_⟩
  · intro b hb
    rw [hget, hb]
    simp [hgate, mutate_param]
  · intro n hn
    rw [hget, hn]
    simp only [Option.map_some, if_pos hgate]
    have hb := pyRandint_sym_bound (intAdjustment_pos n) (d i).intOff
    have hadj := intAdjustment_pos n
    show ((n + pyRandint (-intAdjustment n) (intAdjustment n) (d i).intOff) - n).natAbs
        ≤ (intAdjustment n).toNat
    omega
  · intro x hx
    rw [hget, hx]
    simp only [Option.map_some, if_pos hgate]
    have hc : (0 : ℚ) ≤ |x| * (1/10) := by positivity
    have hb := pyUniform_sym_bound hc (d i).unif
    simp only [mutate_param, floatWithin]
    calc |x + pyUniform (-(|x| * (1/10))) (|x| * (1/10)) (d i).unif - x|
        = |pyUniform (-(|x| * (1/10))) (|x| * (1/10)) (d i).unif| := by ring_nf
      _ ≤ |x| * (1/10) := hb

/-- C2 (witness): on the concrete genome with a boolean parameter `flag`
and integer parameter `x = 25`, rate-1.0 mutation flips the boolean and
moves the integer by at most `max(1, int(2.5)) = 2`. -/
theorem C2_mutation_fidelity_witness :
    (agC2w.mutate (some 1) mdC2).strategy_params.get? 0 = some ("flag", .pbool false) ∧
    intWithin 25 ((agC2w.mutate (some 1) mdC2).strategy_params.get? 1) :=
  ⟨(C2_mutation_fidelity agC2w mdC2 0 "flag").1 true (by decide),
   (C2_mutation_fidelity agC2w mdC2 1 "x").2.1 25 (by decide)⟩

/-- C3 (counterexample): constructing an engine with tournament size 5
exceeding population size 3 succeeds and yields a normally configured
engine — `EvolutionEngine.__init__` contains no validation and raises no
`InvalidParameterError` at configuration time. -/
theorem C3_counterexample :
    engC3.population_size = 3 ∧ engC3.tournament_size = 5 ∧ engC3.elitism_count = 2 ∧
    engC3.population = [] ∧ engC3.current_generation = 0 :=
  ⟨rfl, rfl, rfl, rfl, rfl⟩

/-- C3 (amended): construction performs no validation and always succeeds
with the given configuration stored verbatim; a tournament size exceeding
the current population size instead surfaces later as a `ValueError` when
`tournament_selection` calls `random.sample`; an oversized elitism count
raises nothing at all. -/
theorem C3_no_validation :
    (∀ (population_size tournament_size : Nat) (crossover_rate mutation_rate : ℚ)
        (elitism_count : Nat) (fitness_function : Option (Agent → ℚ)),
      (EvolutionEngine.init population_size tournament_size crossover_rate mutation_rate
          elitism_count fitness_function).population_size = population_size ∧
      (EvolutionEngine.init population_size tournament_size crossover_rate mutation_rate
          elitism_count fitness_function).tournament_size = tournament_size ∧
      (EvolutionEngine.init population_size tournament_size crossover_rate mutation_rate
          elitism_count fitness_function).elitism_count = elitism_count ∧
      (EvolutionEngine.init population_size tournament_size crossover_rate mutation_rate
          elitism_count fitness_function).population = []) ∧
    (∀ (s : EvolutionEngine) (d : Nat → Nat), s.population.length < s.tournament_size →
      tournament_selection s d = .error .valueError) := by
  constructor
  · intro N k pc pm e F
    exact ⟨rfl, rfl, rfl, rfl⟩
  · intro s d h
    unfold tournament_selection pySample
    rw [if_neg (by omega)]

/-- C3 (witness): the invalidly configured `engC3` is constructed with its
parameters stored, and tournament selection on its (smaller) population
raises `ValueError`. -/
theorem C3_no_validation_witness :
    (EvolutionEngine.init 3 5 (7/10) (1/10) 2 none).tournament_size = 5 ∧
    tournament_selection engC3 (fun _ => 0) = .error .valueError :=
  ⟨(C3_no_validation.1 3 5 (7/10) (1/10) 2 none).2.1,
   C3_no_validation.2 engC3 (fun _ => 0) (by decide)⟩

/-- C4 (counterexample): cloning an agent whose `fitness` attribute is set
to 7 yields a clone whose fitness is still 7 — `clone()` deep-copies the
fitness, so it is not unset immediately after `clone()`. -/
theorem C4_counterexample :
    (agC4.clone 2).fitness = some (some 7) ∧ agC4.fitness = some (some 7) ∧
    (some (some (7 : ℚ)) : Option (Option ℚ)) ≠ none :=
  ⟨rfl, rfl, by decide⟩

/-- C4 (amended): a crossover child and a freshly constructed genome have
unset fitness, while `clone()` copies the fitness attribute as-is (set or
unset) and `mutate()` leaves it unchanged — so fitness is unset after
clone only when the original's was. -/
theorem C4_fitness_after_operators (a1 a2 a : Agent) (coin : Nat → ℚ)
    (cid nid nid2 : Nat) (r : Option ℚ) (d : Nat → MutDraw)
    (ps : List (String × PValue)) (g : Int) (pid : Option (List Nat)) :
    (Agent.crossover a1 a2 coin cid).fitness = none ∧
    (Agent.init ps g pid nid2).fitness = none ∧
    (Agent.clone a nid).fitness = a.fitness ∧
    (Agent.mutate a r d).fitness = a.fitness :=
  ⟨rfl, rfl, rfl, rfl⟩

/-- C5: the crossover child's key set is the union of the parents' key
sets; a key present in only one parent takes exactly that parent's value;
a key present in both takes one of the two parents' values; and the
child's generation, parent identifiers and mutation rate are
`max(g1, g2) + 1`, `[id1, id2]` and the parents' average respectively. -/
theorem C5_crossover_shape (agent1 agent2 : Agent) (coin : Nat → ℚ) (newId : Nat) :
    (∀ k, (lookupParam k (Agent.crossover agent1 agent2 coin newId).strategy_params).isSome
        = (keyMem k agent1.strategy_params || keyMem k agent2.strategy_params)) ∧
    (∀ k v, lookupParam k agent1.strategy_params = some v →
      lookupParam k agent2.strategy_params = none →
      lookupParam k (Agent.crossover agent1 agent2 coin newId).strategy_params = some v) ∧
    (∀ k v, lookupParam k agent2.strategy_params = some v →
      lookupParam k agent1.strategy_params = none →
      lookupParam k (Agent.crossover agent1 agent2 coin newId).strategy_params = some v) ∧
    (∀ k v1 v2, lookupParam k agent1.strategy_params = some v1 →
      lookupParam k agent2.strategy_params = some v2 →
      lookupParam k (Agent.crossover agent1 agent2 coin newId).strategy_params = some v1 ∨
      lookupParam k (Agent.crossover agent1 agent2 coin newId).strategy_params = some v2) ∧
    (Agent.crossover agent1 agent2 coin newId).generation
      = max agent1.generation agent2.generation + 1 ∧
    (Agent.crossover agent1 agent2 coin newId).parent_ids = [agent1.id, agent2.id] ∧
    (Agent.crossover agent1 agent2 coin newId).mutation_rate
      = (agent1.mutation_rate + agent2.mutation_rate) / 2 := by
  have hparams : (Agent.crossover agent1 agent2 coin newId).strategy_params =
      crossParamsGo agent1.strategy_params agent2.strategy_params coin 0
        (unionKeyList agent1.strategy_params agent2.strategy_params) := rfl
  refine ⟨?_, ?_, ?_, ?_, rfl, rfl, rfl⟩
  · intro k
    rw [hparams]
    by_cases hu : k ∈ unionKeyList agent1.strategy_params agent2.strategy_params
    · obtain ⟨q, hq⟩ := crossParamsGo_mem 0 hu
      rw [hq]
      rcases mem_unionKeyList.mp hu with h | h <;> simp [h]
    · rw [crossParamsGo_not_mem 0 hu]
      have h1 : ¬(keyMem k agent1.strategy_params = true ∨
          keyMem k agent2.strategy_params = true) := fun h => hu (mem_unionKeyList.mpr h)
      push_neg at h1
      simp [h1.1, h1.2]
  · intro k v h1 h2
    have hu : k ∈ unionKeyList agent1.strategy_params agent2.strategy_params :=
      mem_unionKeyList.mpr (Or.inl (by simp [keyMem, h1]))
    obtain ⟨q, hq⟩ := crossParamsGo_mem 0 hu
    rw [hparams, hq, crossoverValue_left q h1 h2]
  · intro k v h2 h1
    have hu : k ∈ unionKeyList agent1.strategy_params agent2.strategy_params :=
      mem_unionKeyList.mpr (Or.inr (by simp [keyMem, h2]))
    obtain ⟨q, hq⟩ := crossParamsGo_mem 0 hu
    rw [hparams, hq, crossoverValue_right q h1 h2]
  · intro k v1 v2 h1 h2
    have hu : k ∈ unionKeyList agent1.strategy_params agent2.strategy_params :=
      mem_unionKeyList.mpr (Or.inl (by simp [keyMem, h1]))
    obtain ⟨q, hq⟩ := crossParamsGo_mem 0 hu
    rw [hparams, hq]
    rcases crossoverValue_both q h1 h2 with h | h
    · exact Or.inl (by rw [h])
    · exact Or.inr (by rw [h])

/-- C5 (witness): crossing the concrete parents `agC5a` (keys `a`, `b`)
and `agC5b` (keys `b`, `c`) gives a child holding `a` from parent 1, `c`
from parent 2, one of the parents' two values at `b`, generation 1,
parent ids `[7, 9]` and the averaged mutation rate `1/10`. -/
theorem C5_crossover_shape_witness :
    lookupParam "a" (Agent.crossover agC5a agC5b coinZero 77).strategy_params
      = some (.pbool true) ∧
    lookupParam "c" (Agent.crossover agC5a agC5b coinZero 77).strategy_params
      = some (.pfloat 3) ∧
    (lookupParam "b" (Agent.crossover agC5a agC5b coinZero 77).strategy_params
        = some (.pint 1) ∨
      lookupParam "b" (Agent.crossover agC5a agC5b coinZero 77).strategy_params
        = some (.pint 2)) ∧
    (Agent.crossover agC5a agC5b coinZero 77).generation = 1 ∧
    (Agent.crossover agC5a agC5b coinZero 77).parent_ids = [7, 9] ∧
    (Agent.crossover agC5a agC5b coinZero 77).mutation_rate = 1/10 := by
  have h := C5_crossover_shape agC5a agC5b coinZero 77
  refine ⟨h.2.1 "a" (.pbool true) (by decide) (by decide),
    h.2.2.1 "c" (.pfloat 3) (by decide) (by decide),
    h.2.2.2.1 "b" (.pint 1) (.pint 2) (by decide) (by decide), rfl, rfl, by decide⟩

theorem evalLoop_allset {f : Agent → ℚ} :
    ∀ {l : List Agent}, (∀ a ∈ l, fitnessIsSet a = true) → evalLoop f l = .ok l
  | [], _ => rfl
  | b :: t, h => by
      have hb := h b (List.mem_cons_self b t)
      cases hbf : b.fitness with
      | none => simp [fitnessIsSet, hbf] at hb
      | some v =>
          cases v with
          | none => simp [fitnessIsSet, hbf] at hb
          | some q =>
              have ih := @evalLoop_allset f t
                (fun a ha => h a (List.mem_cons_of_mem _ ha))
              simp [evalLoop, readFitness, hbf, ih]

theorem evalLoop_attr_error {f : Agent → ℚ} :
    ∀ {l : List Agent} {a : Agent}, a ∈ l → a.fitness = none →
      evalLoop f l = .error .attributeError
  | [], a, h, _ => absurd h (List.not_mem_nil a)
  | b :: t, a, h, hfit => by
      cases hb : b.fitness with
      | none => simp [evalLoop, readFitness, hb]
      | some v =>
          have ha : a ∈ t := by
            rcases List.mem_cons.mp h with rfl | h'
            · rw [hb] at hfit; cases hfit
            · exact h'
          have ih := @evalLoop_attr_error f t a ha hfit
          simp [evalLoop, readFitness, hb, ih]

theorem evaluate_population_allset {s : EvolutionEngine} {f : Agent → ℚ}
    (hf : s.fitness_function = some f) (hne : s.population ≠ [])
    (hall : ∀ a ∈ s.population, fitnessIsSet a = true) :
    evaluate_population s = .ok s.population := by
  unfold evaluate_population
  rw [hf]
  dsimp only
  rw [evalLoop_allset hall]
  dsimp only
  rw [if_neg]
  simp [hne]

theorem attachKeys_allset :
    ∀ {l : List Agent}, (∀ a ∈ l, fitnessIsSet a = true) →
      ∃ keys, attachKeys l = .ok keys ∧ keys.any Option.isNone = false
  | [], _ => ⟨[], rfl, rfl⟩
  | b :: t, h => by
      have hb := h b (List.mem_cons_self b t)
      cases hbf : b.fitness with
      | none => simp [fitnessIsSet, hbf] at hb
      | some v =>
          cases v with
          | none => simp [fitnessIsSet, hbf] at hb
          | some q =>
              obtain ⟨keys, hk, hany⟩ :=
                attachKeys_allset (fun a ha => h a (List.mem_cons_of_mem _ ha))
              exact ⟨some q :: keys, by simp [attachKeys, hbf, hk], by simp [hany]⟩

theorem sortByFitnessDesc_ok {pop : List Agent}
    (h : ∀ a ∈ pop, fitnessIsSet a = true) :
    sortByFitnessDesc pop = .ok (sortAgentsDesc pop) := by
  obtain ⟨keys, hk, hany⟩ := attachKeys_allset h
  unfold sortByFitnessDesc
  rw [hk]
  simp [hany]

theorem length_insertAgentDesc (x : Agent) :
    ∀ l, (insertAgentDesc x l).length = l.length + 1
  | [] => rfl
  | y :: t => by
      unfold insertAgentDesc
      split
      · simp only [List.length_cons, length_insertAgentDesc x t]
      · simp only [List.length_cons]

theorem length_sortAgentsDesc : ∀ l, (sortAgentsDesc l).length = l.length
  | [] => rfl
  | x :: t => by
      unfold sortAgentsDesc
      rw [length_insertAgentDesc, length_sortAgentsDesc t]
      simp

theorem mem_insertAgentDesc {b x : Agent} :
    ∀ {l : List Agent}, b ∈ insertAgentDesc x l → b = x ∨ b ∈ l
  | [], h => by simpa [insertAgentDesc] using h
  | y :: t, h => by
      unfold insertAgentDesc at h
      split at h
      · rcases List.mem_cons.mp h with rfl | h'
        · exact Or.inr (List.mem_cons_self _ _)
        · rcases mem_insertAgentDesc h' with h'' | h''
          · exact Or.inl h''
          · exact Or.inr (List.mem_cons_of_mem _ h'')
      · rcases List.mem_cons.mp h with rfl | h'
        · exact Or.inl rfl
        · exact Or.inr h'

theorem mem_sortAgentsDesc {b : Agent} :
    ∀ {l : List Agent}, b ∈ sortAgentsDesc l → b ∈ l
  | [], h => absurd h (List.not_mem_nil b)
  | x :: t, h => by
      unfold sortAgentsDesc at h
      rcases mem_insertAgentDesc h with rfl | h'
      · exact List.mem_cons_self _ _
      · exact List.mem_cons_of_mem _ (mem_sortAgentsDesc h')

theorem cloneList_length : ∀ (l : List Agent) (ctr : Nat),
    (cloneList l ctr).1.length = l.length
  | [], _ => rfl
  | a :: t, ctr => by simp [cloneList, cloneList_length t (ctr + 1)]

theorem cloneList_get : ∀ (l : List Agent) (ctr i : Nat),
    (cloneList l ctr).1.get? i = (l.get? i).map (fun a => a.clone (ctr + i))
  | [], _, _ => by simp [cloneList]
  | a :: t, ctr, 0 => by simp [cloneList]
  | a :: t, ctr, i + 1 => by
      have h := cloneList_get t (ctr + 1) i
      have e : ctr + 1 + i = ctr + (i + 1) := by omega
      rw [e] at h
      simpa [cloneList] using h

theorem offspringLoop_length {s : EvolutionEngine} :
    ∀ {n : Nat} {ds : Nat → IterDraw} {ctr : Nat} {r : List Agent × Nat},
      offspringLoop s n ds ctr = .ok r → r.1.length = n
  | 0, ds, ctr, r, h => by
      unfold offspringLoop at h
      cases h
      rfl
  | n + 1, ds, ctr, r, h => by
      unfold offspringLoop at h
      cases h1 : offspringStep s (ds 0) ctr with
      | error e => rw [h1] at h; cases h
      | ok ac =>
          rw [h1] at h
          dsimp only at h
          cases h2 : offspringLoop s n (fun i => ds (i + 1)) ac.2 with
          | error e => rw [h2] at h; cases h
          | ok rest =>
              rw [h2] at h
              cases h
              have := offspringLoop_length h2
              simp [this]

theorem getTakeEq {α : Type} : ∀ (l : List α) (n i : Nat), i < n →
    (l.take n).get? i = l.get? i := by
  intro l
  induction l with
  | nil => intro n i _; simp
  | cons a t ih =>
      intro n i h
      cases n with
      | zero => omega
      | succ m =>
          cases i with
          | zero => rfl
          | succ j => simpa using ih m j (by omega)

theorem getAppendLeftEq {α : Type} : ∀ (l1 l2 : List α) (i : Nat), i < l1.length →
    (l1 ++ l2).get? i = l1.get? i := by
  intro l1
  induction l1 with
  | nil => intro l2 i h; simp at h
  | cons a t ih =>
      intro l2 i h
      cases i with
      | zero => rfl
      | succ j => simpa using ih l2 j (by simpa using h)

theorem create_ok_destruct {s : EvolutionEngine} {ds : Nat → IterDraw} {ctr : Nat}
    {out : EvolutionEngine × Nat}
    (hok : create_next_generation s ds ctr = .ok out) :
    ∃ (pop1 sorted : List Agent) (offs : List Agent × Nat) (hc : EvolutionHistory × Nat),
      evaluate_population s = .ok pop1 ∧
      sortByFitnessDesc pop1 = .ok sorted ∧
      offspringLoop { s with population := pop1 }
        (s.population_size - (cloneList (sorted.take s.elitism_count) ctr).1.length) ds
        (cloneList (sorted.take s.elitism_count) ctr).2 = .ok offs ∧
      record_generation_stats
        { s with
          population :=
            ((cloneList (sorted.take s.elitism_count) ctr).1 ++ offs.1).take s.population_size
          current_generation := s.current_generation + 1 } offs.2 = .ok hc ∧
      out.1.population =
        ((cloneList (sorted.take s.elitism_count) ctr).1 ++ offs.1).take s.population_size ∧
      out.1.history = hc.1 ∧
      out.1.population_size = s.population_size ∧
      out.1.elitism_count = s.elitism_count ∧
      out.2 = hc.2 := by
  unfold create_next_generation at hok
  cases h1 : evaluate_population s with
  | error e => rw [h1] at hok; cases hok
  | ok pop1 =>
      rw [h1] at hok
      dsimp only at hok
      cases h2 : sortByFitnessDesc pop1 with
      | error e => rw [h2] at hok; cases hok
      | ok sorted =>
          rw [h2] at hok
          dsimp only at hok
          cases h3 : offspringLoop { s with population := pop1 }
              (s.population_size - (cloneList (sorted.take s.elitism_count) ctr).1.length) ds
              (cloneList (sorted.take s.elitism_count) ctr).2 with
          | error e => rw [h3] at hok; cases hok
          | ok offs =>
              rw [h3] at hok
              dsimp only at hok
              cases h4 : record_generation_stats
                  { s with
                    population := ((cloneList (sorted.take s.elitism_count) ctr).1
                      ++ offs.1).take s.population_size
                    current_generation := s.current_generation + 1 } offs.2 with
              | error e => rw [h4] at hok; cases hok
              | ok hc =>
                  rw [h4] at hok
                  dsimp only at hok
                  cases hok
                  exact ⟨pop1, sorted, offs, hc, rfl, h2, h3, h4, rfl, rfl, rfl, rfl, rfl⟩

/-- C1: whenever `create_next_generation()` returns on a non-empty,
fully evaluated population with `N ≥ e` and `1 ≤ k ≤ N`, the new
population's length is exactly the configured `population_size`. -/
theorem C1_population_size (s : EvolutionEngine)
    (hne : s.population ≠ [])
    (hall : ∀ a ∈ s.population, fitnessIsSet a = true)
    (he : s.elitism_count ≤ s.population_size)
    (hk1 : 1 ≤ s.tournament_size) (hkN : s.tournament_size ≤ s.population_size)
    (ds : Nat → IterDraw) (ctr : Nat)
    (hok : exceptOk (create_next_generation s ds ctr) = true) :
    resultPopLen (create_next_generation s ds ctr) = some s.population_size := by
  cases hres : create_next_generation s ds ctr with
  | error e => rw [hres] at hok; simp [exceptOk] at hok
  | ok out =>
      obtain ⟨pop1, sorted, offs, hc, h1, h2, h3, h4, hpop, _, _, _, _⟩ :=
        create_ok_destruct hres
      have hoffs := offspringLoop_length h3
      unfold resultPopLen
      dsimp only
      rw [hpop]
      congr 1
      simp only [List.length_take, List.length_append, hoffs]
      omega

/-- C1 (witness): the concrete engine `engC1` (`N = 2`, `k = 1`, `e = 1`,
both agents evaluated) returns normally and its new population has
length 2. -/
theorem C1_population_size_witness :
    resultPopLen (create_next_generation engC1 dsZero 100) = some 2 :=
  C1_population_size engC1 (by decide) (by decide) (by decide) (by decide) (by decide)
    dsZero 100 (by decide)

theorem evaluate_ok_eq {s : EvolutionEngine} {pop1 : List Agent}
    (hall : ∀ a ∈ s.population, fitnessIsSet a = true)
    (h1 : evaluate_population s = .ok pop1) : pop1 = s.population := by
  unfold evaluate_population at h1
  cases hf : s.fitness_function with
  | none => rw [hf] at h1; cases h1
  | some f =>
      rw [hf] at h1
      dsimp only at h1
      rw [evalLoop_allset hall] at h1
      dsimp only at h1
      split at h1
      · cases h1
      · cases h1; rfl

/-- C8: when `create_next_generation()` returns on a fully evaluated
population with `e ≤ N` and all current identifiers below the fresh-id
counter, position `i < min(e, len)` of the new population holds an agent
with exactly the `strategy_params` and `fitness` of position `i` of the
descending fitness sort of the old population, under a distinct
identifier — the top `e` genomes reappear as verbatim clones in preserved
fitness order. -/
theorem C8_elitism_fidelity (s : EvolutionEngine)
    (hall : ∀ a ∈ s.population, fitnessIsSet a = true)
    (he : s.elitism_count ≤ s.population_size)
    (ctr : Nat) (hfresh : ∀ a ∈ s.population, a.id < ctr)
    (ds : Nat → IterDraw)
    (hok : exceptOk (create_next_generation s ds ctr) = true)
    (sorted : List Agent) (hs : sortByFitnessDesc s.population = .ok sorted)
    (i : Nat) (hi : i < min s.elitism_count s.population.length)
    (orig : Agent) (ho : sorted.get? i = some orig) :
    (resultPopGet (create_next_generation s ds ctr) i).map cloneView
      = some (cloneView orig) ∧
    idDiffers (resultPopGet (create_next_generation s ds ctr) i) orig := by
  cases hres : create_next_generation s ds ctr with
  | error e => rw [hres] at hok; simp [exceptOk] at hok
  | ok out =>
      obtain ⟨pop1, sorted', offs, hc, h1, h2, h3, h4, hpop, _, _, _, _⟩ :=
        create_ok_destruct hres
      have hpe : pop1 = s.population := evaluate_ok_eq hall h1
      subst hpe
      have hse : sorted = sorted' := by
        rw [h2] at hs
        exact (Except.ok.inj hs).symm
      subst hse
      have hsorted : sorted = sortAgentsDesc s.population := by
        rw [sortByFitnessDesc_ok hall] at h2
        exact (Except.ok.inj h2).symm
      have hslen : sorted.length = s.population.length := by
        rw [hsorted, length_sortAgentsDesc]
      have hie : i < s.elitism_count := lt_of_lt_of_le hi (min_le_left _ _)
      have hcl : (cloneList (sorted.take s.elitism_count) ctr).1.length
          = min s.elitism_count sorted.length := by
        rw [cloneList_length, List.length_take]
      have hicl : i < (cloneList (sorted.take s.elitism_count) ctr).1.length := by
        rw [hcl, hslen]
        exact hi
      have hiN : i < s.population_size := lt_of_lt_of_le hie he
      have hget : out.1.population.get? i = some (orig.clone (ctr + i)) := by
        rw [hpop, getTakeEq _ _ _ hiN, getAppendLeftEq _ _ _ hicl, cloneList_get,
          getTakeEq _ _ _ hie, ho]
        rfl
      have hmem : orig ∈ s.population := by
        have : orig ∈ sorted := List.get?_mem ho
        rw [hsorted] at this
        exact mem_sortAgentsDesc this
      have hid : orig.id < ctr := hfresh orig hmem
      constructor
      · unfold resultPopGet
        dsimp only
        rw [hget]
        rfl
      · unfold resultPopGet
        dsimp only
        rw [hget]
        show ctr + i ≠ orig.id
        omega

/-- C8 (witness): on the concrete engine `engC8` (population `[agC1b,
agC1a]` with fitness 4 and 9, `e = 1`), the head of the new population is
a clone of the fitness-best agent `agC1a` under a fresh identifier. -/
theorem C8_elitism_fidelity_witness :
    (resultPopGet (create_next_generation engC8 dsZero 100) 0).map cloneView
      = some (cloneView agC1a) ∧
    idDiffers (resultPopGet (create_next_generation engC8 dsZero 100) 0) agC1a :=
  C8_elitism_fidelity engC8 (by decide) (by decide) 100 (by decide) dsZero (by decide)
    [agC1a, agC1b] (by decide) 0 (by decide) agC1a (by decide)

theorem record_extends {s : EvolutionEngine} {ctr : Nat} {hc : EvolutionHistory × Nat}
    (h : record_generation_stats s ctr = .ok hc) :
    ∃ t, hc.1.best_agent_history = s.history.best_agent_history ++ t := by
  unfold record_generation_stats at h
  cases h1 : collectFitness s.population with
  | error e => rw [h1] at h; cases h
  | ok fits =>
      rw [h1] at h
      dsimp only at h
      cases h2 : listMaxQ fits with
      | none =>
          rw [h2] at h
          dsimp only at h
          cases h
          exact ⟨[], (List.append_nil _).symm⟩
      | some best =>
          rw [h2] at h
          dsimp only at h
          unfold add_generation at h
          cases h3 : pyMaxByFitness s.population with
          | error e => rw [h3] at h; cases h
          | ok ba =>
              rw [h3] at h
              dsimp only at h
              cases h
              exact ⟨[ba.clone ctr], rfl⟩

theorem create_history_extends {s : EvolutionEngine} {ds : Nat → IterDraw} {ctr : Nat}
    {out : EvolutionEngine × Nat}
    (hok : create_next_generation s ds ctr = .ok out) :
    ∃ t, out.1.history.best_agent_history = s.history.best_agent_history ++ t := by
  obtain ⟨pop1, sorted, offs, hc, h1, h2, h3, h4, hpop, hhist, _, _, _⟩ :=
    create_ok_destruct hok
  obtain ⟨t, ht⟩ := record_extends h4
  exact ⟨t, by rw [hhist]; exact ht⟩

theorem evolve_history_extends :
    ∀ (n : Nat) (s : EvolutionEngine) (ds : Nat → Nat → IterDraw) (ctr : Nat)
      (out : EvolutionEngine × Nat), evolve n s ds ctr = .ok out →
      ∃ t, out.1.history.best_agent_history = s.history.best_agent_history ++ t
  | 0, s, ds, ctr, out, h => by
      unfold evolve at h
      cases h
      exact ⟨[], (List.append_nil _).symm⟩
  | n + 1, s, ds, ctr, out, h => by
      unfold evolve at h
      cases h1 : create_next_generation s (ds 0) ctr with
      | error e => rw [h1] at h; cases h
      | ok sc =>
          rw [h1] at h
          dsimp only at h
          obtain ⟨t1, ht1⟩ := create_history_extends h1
          obtain ⟨t2, ht2⟩ := evolve_history_extends n sc.1 (fun g => ds (g + 1)) sc.2 out h
          exact ⟨t1 ++ t2, by rw [ht2, ht1, List.append_assoc]⟩

theorem maxFold_append (ca : Agent) (ck : Option ℚ) (l : List Agent) :
    ∀ t : List Agent,
      maxFold (ca, ck) (l ++ t) =
        match maxFold (ca, ck) l with
        | .error e => .error e
        | .ok r => maxFold r t := by
  induction l generalizing ca ck with
  | nil => intro t; rfl
  | cons b l ih =>
      intro t
      show maxFold (ca, ck) (b :: (l ++ t)) = _
      simp only [maxFold]
      cases hb : readFitness b with
      | error e => simp
      | ok kb =>
          cases kb with
          | none => cases ck <;> simp
          | some qb =>
              cases ck with
              | none => simp
              | some qc =>
                  dsimp only
                  by_cases hgt : qb > qc
                  · simp only [if_pos hgt]
                    exact ih b (some qb) t
                  · simp only [if_neg hgt]
                    exact ih ca (some qc) t

theorem maxFold_key_mono :
    ∀ (l : List Agent) (ca : Agent) (qc : ℚ) (r : Agent × Option ℚ),
      maxFold (ca, some qc) l = .ok r → ∃ qr, r.2 = some qr ∧ qc ≤ qr
  | [], ca, qc, r, h => by
      unfold maxFold at h
      cases h
      exact ⟨qc, rfl, le_refl qc⟩
  | b :: l, ca, qc, r, h => by
      simp only [maxFold] at h
      cases hb : readFitness b with
      | error e => rw [hb] at h; cases h
      | ok kb =>
          rw [hb] at h
          cases kb with
          | none => dsimp only at h; cases h
          | some qb =>
              dsimp only at h
              by_cases hgt : qb > qc
              · rw [if_pos hgt] at h
                obtain ⟨qr, hr, hle⟩ := maxFold_key_mono l b qb r h
                exact ⟨qr, hr, le_trans (le_of_lt hgt) hle⟩
              · rw [if_neg hgt] at h
                exact maxFold_key_mono l ca qc r h

theorem maxFold_key_sound :
    ∀ (l : List Agent) (ca : Agent) (ck : Option ℚ) (r : Agent × Option ℚ),
      readFitness ca = .ok ck → maxFold (ca, ck) l = .ok r →
      readFitness r.1 = .ok r.2
  | [], ca, ck, r, hca, h => by
      unfold maxFold at h
      cases h
      exact hca
  | b :: l, ca, ck, r, hca, h => by
      simp only [maxFold] at h
      cases hb : readFitness b with
      | error e => rw [hb] at h; cases h
      | ok kb =>
          rw [hb] at h
          cases kb with
          | none =>
              cases ck with
              | none => dsimp only at h; cases h
              | some qc => dsimp only at h; cases h
          | some qb =>
              cases ck with
              | none => dsimp only at h; cases h
              | some qc =>
                  dsimp only at h
                  by_cases hgt : qb > qc
                  · rw [if_pos hgt] at h
                    exact maxFold_key_sound l b (some qb) r hb h
                  · rw [if_neg hgt] at h
                    exact maxFold_key_sound l ca (some qc) r hca h

theorem bestEverVal_destruct {hh : EvolutionHistory} {v : ℚ}
    (hv : bestEverFitnessVal hh = .ok (some v)) :
    ∃ (a : Agent) (rest : List Agent) (ka : Option ℚ) (r : Agent × Option ℚ),
      hh.best_agent_history = a :: rest ∧ readFitness a = .ok ka ∧
      maxFold (a, ka) rest = .ok r ∧ readFitness r.1 = .ok (some v) ∧
      r.2 = some v := by
  unfold bestEverFitnessVal at hv
  cases hg : get_best_agent_ever hh with
  | error e => rw [hg] at hv; cases hv
  | ok o =>
      rw [hg] at hv
      cases o with
      | none => dsimp only at hv; cases hv
      | some ba =>
          dsimp only at hv
          unfold get_best_agent_ever at hg
          cases hl : hh.best_agent_history with
          | nil => rw [hl] at hg; cases hg
          | cons a rest =>
              rw [hl] at hg
              dsimp only at hg
              unfold pyMaxByFitness at hg
              dsimp only at hg
              cases hka : readFitness a with
              | error e => rw [hka] at hg; cases hg
              | ok ka =>
                  rw [hka] at hg
                  dsimp only at hg
                  cases hmf : maxFold (a, ka) rest with
                  | error e => rw [hmf] at hg; cases hg
                  | ok r =>
                      rw [hmf] at hg
                      dsimp only at hg
                      have hba : ba = r.1 := by
                        have := Except.ok.inj hg
                        exact (Option.some.inj this).symm
                      subst hba
                      have hsound := maxFold_key_sound rest a ka r hka hmf
                      have hr2 : r.2 = some v := Except.ok.inj (hsound.symm.trans hv)
                      exact ⟨a, rest, ka, r, rfl, hka, hmf, hv, hr2⟩

theorem bestEver_mono {hh hh' : EvolutionHistory} {t : List Agent}
    (hext : hh'.best_agent_history = hh.best_agent_history ++ t) {v v' : ℚ}
    (hv : bestEverFitnessVal hh = .ok (some v))
    (hv' : bestEverFitnessVal hh' = .ok (some v')) : v ≤ v' := by
  obtain ⟨a, rest, ka, r, hl, hka, hmf, hrv, hr2⟩ := bestEverVal_destruct hv
  obtain ⟨a', rest', ka', r', hl', hka', hmf', hrv', hr2'⟩ := bestEverVal_destruct hv'
  rw [hext, hl, List.cons_append] at hl'
  injection hl' with he1 he2
  subst he1
  subst he2
  have hkk : ka = ka' := Except.ok.inj (hka.symm.trans hka')
  subst hkk
  rw [maxFold_append, hmf]  at hmf'
  dsimp only at hmf'
  obtain ⟨r1, r2⟩ := r
  dsimp only at hr2
  subst hr2
  obtain ⟨qr, hqr, hle⟩ := maxFold_key_mono t r1 v r' hmf'
  have hqv : some qr = some v' := hqr.symm.trans hr2'
  cases hqv
  exact hle

/-- C9: with elitism at least 1 and the (inherently deterministic)
embedded fitness function, the best-ever fitness reported by
`get_best_agent_ever()` never decreases across an `evolve()` call: if it
read `v` before and reads `v'` after a normal return, then `v ≤ v'`. -/
theorem C9_best_ever_monotone (s : EvolutionEngine) (he : 1 ≤ s.elitism_count)
    (ds : Nat → Nat → IterDraw) (ctr n : Nat) (v v' : ℚ)
    (hv : bestEverFitnessVal s.history = .ok (some v))
    (hv' : bestEverAfter (evolve n s ds ctr) = .ok (some v')) : v ≤ v' := by
  cases hres : evolve n s ds ctr with
  | error e =>
      rw [hres] at hv'
      dsimp only [bestEverAfter] at hv'
      cases hv'
  | ok out =>
      rw [hres] at hv'
      dsimp only [bestEverAfter] at hv'
      obtain ⟨t, ht⟩ := evolve_history_extends n s ds ctr out hres
      exact bestEver_mono ht hv hv'

/-- C9 (witness): evolving the concrete engine `engC9` (best-ever fitness
1 in its history, elites of fitness 9 in its population) for one
generation raises the best-ever fitness from 1 to 9, and 1 ≤ 9. -/
theorem C9_best_ever_monotone_witness :
    bestEverFitnessVal engC9.history = .ok (some 1) ∧
    bestEverAfter (evolve 1 engC9 (fun _ => dsZero) 100) = .ok (some 9) ∧
    (1 : ℚ) ≤ 9 :=
  ⟨by decide, by decide,
    C9_best_ever_monotone engC9 (by decide) (fun _ => dsZero) 100 1 1 9
      (by decide) (by decide)⟩

/-- C7: with a fitness function supplied but a freshly constructed agent
(no `fitness` attribute) in the population, `evaluate_population` raises
`AttributeError` instead of computing `F` for the unset genome — the
engine/genome field-name mismatch the spec's intent contradicts. -/
theorem C7_evaluate_attribute_error :
    evaluate_population engC7 = .error .attributeError ∧
    (∃ f, engC7.fitness_function = some f) ∧ agFresh ∈ engC7.population ∧
    agFresh.fitness = none := by
  refine ⟨?_, ⟨fun _ => 1, rfl⟩, by decide, rfl⟩
  unfold evaluate_population
  show (match evalLoop (fun _ => 1) engC7.population with
    | Except.error e => (Except.error e : Except PyErr (List Agent))
    | Except.ok pop' =>
        if engC7.population.isEmpty then Except.error PyErr.valueError
        else Except.ok pop') = Except.error PyErr.attributeError
  rw [@evalLoop_attr_error (fun _ => 1) engC7.population agFresh (by decide) rfl]

/-- C10: the engine reads `agent.fitness` while `Agent` only ever defines
`fitness_score` (initialised to 0.0): a constructed or crossover agent has
no `fitness` attribute, so `evaluate_population` — and any access through
`readFitness`, as in tournament selection or history recording — raises
`AttributeError` for every population containing such an agent. -/
theorem C10_fitness_attribute_mismatch (s : EvolutionEngine) (f : Agent → ℚ)
    (hf : s.fitness_function = some f) (a : Agent) (ha : a ∈ s.population)
    (hfit : a.fitness = none) (ps : List (String × PValue)) (g : Int)
    (pid : Option (List Nat)) (nid : Nat) (a1 a2 : Agent) (coin : Nat → ℚ) (cid : Nat) :
    evaluate_population s = .error .attributeError ∧
    (Agent.init ps g pid nid).fitness = none ∧
    (Agent.init ps g pid nid).fitness_score = 0 ∧
    (Agent.crossover a1 a2 coin cid).fitness = none ∧
    readFitness (Agent.init ps g pid nid) = .error .attributeError := by
  refine ⟨?_, rfl, rfl, rfl, rfl⟩
  unfold evaluate_population
  rw [hf]
  show (match evalLoop f s.population with
    | Except.error e => (Except.error e : Except PyErr (List Agent))
    | Except.ok pop' =>
        if s.population.isEmpty then Except.error PyErr.valueError
        else Except.ok pop') = Except.error PyErr.attributeError
  rw [evalLoop_attr_error ha hfit]

/-- C10 (witness): `engC10` has a fitness function and contains the fresh
agent `agFresh`, and evaluation raises `AttributeError`. -/
theorem C10_fitness_attribute_mismatch_witness :
    engC10.fitness_function = some (fun _ => 1) ∧ agFresh ∈ engC10.population ∧
    agFresh.fitness = none ∧ evaluate_population engC10 = .error .attributeError ∧
    (Agent.init [("x", .pint 1)] 0 none 55).fitness = none :=
  ⟨rfl, by decide, rfl,
    (C10_fitness_attribute_mismatch engC10 (fun _ => 1) rfl agFresh (by decide) rfl
      [("x", .pint 1)] 0 none 55 agFresh agFresh (fun _ => 0) 2).1,
    (C10_fitness_attribute_mismatch engC10 (fun _ => 1) rfl agFresh (by decide) rfl
      [("x", .pint 1)] 0 none 55 agFresh agFresh (fun _ => 0) 2).2.1⟩

/-- C6: `from_dict(to_dict(genome))` restores `id`, `generation`,
`parent_ids`, `strategy_params`, `metrics`, the genome's own fitness field
(`fitness_score` in the source, the spec's `fitness`), `mutation_rate`,
`is_elite` and `active` exactly. -/
theorem C6_roundtrip (a : Agent) (newId : Nat) :
    (Agent.from_dict (Agent.to_dict a) newId).id = a.id ∧
    (Agent.from_dict (Agent.to_dict a) newId).generation = a.generation ∧
    (Agent.from_dict (Agent.to_dict a) newId).parent_ids = a.parent_ids ∧
    (Agent.from_dict (Agent.to_dict a) newId).strategy_params = a.strategy_params ∧
    (Agent.from_dict (Agent.to_dict a) newId).metrics = a.metrics ∧
    (Agent.from_dict (Agent.to_dict a) newId).fitness_score = a.fitness_score ∧
    (Agent.from_dict (Agent.to_dict a) newId).mutation_rate = a.mutation_rate ∧
    (Agent.from_dict (Agent.to_dict a) newId).is_elite = a.is_elite ∧
    (Agent.from_dict (Agent.to_dict a) newId).active = a.active :=
  ⟨rfl, rfl, rfl, rfl, rfl, rfl, rfl, rfl, rfl⟩

end DarwinFi
